import Mathlib

/-!
Verification development for the CareLens-360 per-patient scan pipeline.

The definitions below are a shallow embedding, in Lean 4, of the Python
sources of the repository:

- src/gemini_client.py : the extraction client (reply parsing, fence
  stripping, JSON fallback, error records);
- src/app.py : the scan orchestrator (scan_patient_folder) and the
  aggregation engine (generate_patient_analysis);
- src/firestore_client.py : the record store adapter (save_summary,
  get_patient_summaries, search_by_nl_query, get_all_patients, and the
  measurement query matcher).

Python strings are modelled as List Char; Python text helpers (strip,
find, slicing, split, lower) are reproduced with their Python semantics.
External collaborators (the Gemini model call, the Firestore document
stream) are modelled as explicit inputs: a model reply value, an
Except-typed stream result.  json.loads (Python standard library) is
modelled by an executable strict JSON parser; JSON arrays and objects use
a cons-cell encoding so that equality is decidable.
-/

/-! ## Python string helpers -/

/-- The backtick character, used by the markdown fence markers. -/
def backtickCh : Char := Char.ofNat 96

/-- Opening brace character. -/
def lbraceCh : Char := Char.ofNat 123

/-- Closing brace character. -/
def rbraceCh : Char := Char.ofNat 125

/-- Double-quote character. -/
def quoteCh : Char := Char.ofNat 34

/-- Characters stripped by Python str.strip() (ASCII whitespace). -/
def isPySpace (c : Char) : Bool :=
  c = ' ' || c = '\t' || c = '\n' || c = '\r' || c = Char.ofNat 11 || c = Char.ofNat 12

/-- Python str.strip(): drop whitespace from both ends. -/
def pyStrip (l : List Char) : List Char :=
  ((l.dropWhile isPySpace).reverse.dropWhile isPySpace).reverse

/-- Python str.lower() (ASCII case folding). -/
def pyLower (l : List Char) : List Char := l.map Char.toLower

/-- Helper for Python str.find: first index at or after i where needle starts. -/
def pyFindAux (needle : List Char) : List Char → Nat → Option Nat
  | [], i => if needle.isPrefixOf ([] : List Char) then some i else none
  | c :: t, i => if needle.isPrefixOf (c :: t) then some i else pyFindAux needle t (i + 1)

/-- Python hay.find(needle): index of the first occurrence, none for -1. -/
def pyFind (hay needle : List Char) : Option Nat := pyFindAux needle hay 0

/-- Python hay.find(needle, start). -/
def pyFindFrom (hay needle : List Char) (start : Nat) : Option Nat :=
  (pyFindAux needle (hay.drop start) 0).map (· + start)

/-- Python needle in hay (substring containment). -/
def pyContainsSub (hay needle : List Char) : Bool := (pyFind hay needle).isSome

/-- Python hay[a:b] for nonnegative a, b. -/
def pySlice (l : List Char) (a b : Nat) : List Char := (l.take b).drop a

/-- Helper for Python str.split(sep). -/
def pySplitAux (sep : Char) : List Char → List (List Char) → List Char → List (List Char)
  | cur, acc, [] => acc ++ [cur]
  | cur, acc, c :: t =>
    if c = sep then pySplitAux sep [] (acc ++ [cur]) t else pySplitAux sep (cur ++ [c]) acc t

/-- Python l.split(sep) for a one-character separator; never returns []. -/
def pySplit (l : List Char) (sep : Char) : List (List Char) := pySplitAux sep [] [] l

/-- Python path.split sep with index -1: the text after the last separator. -/
def pyLastSegment (l : List Char) : List Char := (pySplit l '/').getLastD []

/-! ## JSON values and a strict parser (model of Python json.loads)

JSON arrays and objects are encoded as cons-cells (arrNil/arrCons,
objNil/objCons) instead of nested lists so that DecidableEq derives
structurally.  Numbers keep their source token: no claim in this
development depends on numeric identification of JSON literals. -/

/-- A parsed JSON value (cons-cell encoding of arrays and objects). -/
inductive Json where
  | null
  | bool (b : Bool)
  | num (tok : String)
  | str (s : String)
  | arrNil
  | arrCons (head tail : Json)
  | objNil
  | objCons (key : String) (val : Json) (tail : Json)
deriving DecidableEq, Repr

/-- Whether a JSON value is an object (a Python dict after json.loads). -/
def Json.isObj : Json → Bool
  | .objNil => true
  | .objCons _ _ _ => true
  | _ => false

/-- Python dict.get(k, default) on a parsed JSON object; first binding wins. -/
def Json.objGet : Json → String → Json → Json
  | .objCons k v t, key, dflt => if k = key then v else Json.objGet t key dflt
  | _, _, dflt => dflt

/-- JSON insignificant whitespace. -/
def isJsonWs (c : Char) : Bool := c = ' ' || c = '\t' || c = '\n' || c = '\r'

/-- Skip JSON whitespace. -/
def skipJsonWs (l : List Char) : List Char := l.dropWhile isJsonWs

/-- Hexadecimal digit test for \uXXXX escapes. -/
def isHexCh (c : Char) : Bool :=
  c.isDigit || ('a' ≤ c && c ≤ 'f') || ('A' ≤ c && c ≤ 'F')

/-- Value of one hexadecimal digit. -/
def hexVal (c : Char) : Nat :=
  if c.isDigit then c.toNat - 48
  else if 'a' ≤ c && c ≤ 'f' then c.toNat - 87
  else c.toNat - 55

/-- Parse the body of a JSON string after the opening quote; returns the
decoded characters and the input following the closing quote. -/
def parseJsonStrAux : Nat → List Char → List Char → Option (List Char × List Char)
  | 0, _, _ => none
  | _ + 1, _, [] => none
  | fuel + 1, acc, c :: t =>
    if c = quoteCh then some (acc, t)
    else if c = '\\' then
      match t with
      | [] => none
      | e :: t2 =>
        if e = quoteCh then parseJsonStrAux fuel (acc ++ [quoteCh]) t2
        else if e = '\\' then parseJsonStrAux fuel (acc ++ ['\\']) t2
        else if e = '/' then parseJsonStrAux fuel (acc ++ ['/']) t2
        else if e = 'b' then parseJsonStrAux fuel (acc ++ [Char.ofNat 8]) t2
        else if e = 'f' then parseJsonStrAux fuel (acc ++ [Char.ofNat 12]) t2
        else if e = 'n' then parseJsonStrAux fuel (acc ++ ['\n']) t2
        else if e = 'r' then parseJsonStrAux fuel (acc ++ ['\r']) t2
        else if e = 't' then parseJsonStrAux fuel (acc ++ ['\t']) t2
        else if e = 'u' then
          match t2 with
          | a :: b :: c2 :: d :: t3 =>
            if isHexCh a && isHexCh b && isHexCh c2 && isHexCh d then
              let n := ((hexVal a * 16 + hexVal b) * 16 + hexVal c2) * 16 + hexVal d
              parseJsonStrAux fuel (acc ++ [Char.ofNat n]) t3
            else none
          | _ => none
        else none
    else if c.toNat < 32 then none
    else parseJsonStrAux fuel (acc ++ [c]) t

/-- Parse a JSON number token (sign, integer part, fraction, exponent);
returns the token characters and the remaining input. -/
def parseJsonNumTok (l : List Char) : Option (List Char × List Char) :=
  let (sign, r1) :=
    match l with
    | '-' :: t => (['-'], t)
    | _ => (([] : List Char), l)
  let (ip, r2) := r1.span Char.isDigit
  if ip = [] then none
  else if ip.length > 1 && ip.headD '0' = '0' then none
  else
    let (fp, r3) :=
      match r2 with
      | '.' :: t =>
        let (ds, r) := t.span Char.isDigit
        if ds = [] then (([] : List Char), r2) else ('.' :: ds, r)
      | _ => (([] : List Char), r2)
    if r3 ≠ r2 && fp = [] then none
    else
      let (ep, r4) :=
        match r3 with
        | 'e' :: t =>
          let (es, t2) := match t with
            | '+' :: u => (['e', '+'], u)
            | '-' :: u => (['e', '-'], u)
            | _ => (['e'], t)
          let (ds, r) := t2.span Char.isDigit
          if ds = [] then (([] : List Char), r3) else (es ++ ds, r)
        | 'E' :: t =>
          let (es, t2) := match t with
            | '+' :: u => (['E', '+'], u)
            | '-' :: u => (['E', '-'], u)
            | _ => (['E'], t)
          let (ds, r) := t2.span Char.isDigit
          if ds = [] then (([] : List Char), r3) else (es ++ ds, r)
        | _ => (([] : List Char), r3)
      some (sign ++ ip ++ fp ++ ep, r4)

mutual

/-- Parse one JSON value (strict grammar). -/
def parseJsonValue : Nat → List Char → Option (Json × List Char)
  | 0, _ => none
  | fuel + 1, input =>
    let s := skipJsonWs input
    match s with
    | [] => none
    | c :: t =>
      if c = lbraceCh then parseJsonObj fuel t
      else if c = '[' then parseJsonArr fuel t
      else if c = quoteCh then
        match parseJsonStrAux (t.length + 1) [] t with
        | some (cs, rest) => some (Json.str (String.mk cs), rest)
        | none => none
      else if ['N', 'a', 'N'].isPrefixOf s then some (Json.num "NaN", s.drop 3)
      else if ['I', 'n', 'f', 'i', 'n', 'i', 't', 'y'].isPrefixOf s then
        some (Json.num "Infinity", s.drop 8)
      else if ['-', 'I', 'n', 'f', 'i', 'n', 'i', 't', 'y'].isPrefixOf s then
        some (Json.num "-Infinity", s.drop 9)
      else if c = '-' || c.isDigit then
        match parseJsonNumTok s with
        | some (tok, rest) => some (Json.num (String.mk tok), rest)
        | none => none
      else if ['t', 'r', 'u', 'e'].isPrefixOf s then some (Json.bool true, s.drop 4)
      else if ['f', 'a', 'l', 's', 'e'].isPrefixOf s then some (Json.bool false, s.drop 5)
      else if ['n', 'u', 'l', 'l'].isPrefixOf s then some (Json.null, s.drop 4)
      else none

/-- Parse a JSON object body, after the opening brace. -/
def parseJsonObj : Nat → List Char → Option (Json × List Char)
  | 0, _ => none
  | fuel + 1, input =>
    match skipJsonWs input with
    | [] => none
    | c :: r => if c = rbraceCh then some (Json.objNil, r) else parseJsonMembers fuel (c :: r)

/-- Parse a nonempty member list of a JSON object. -/
def parseJsonMembers : Nat → List Char → Option (Json × List Char)
  | 0, _ => none
  | fuel + 1, input =>
    match skipJsonWs input with
    | [] => none
    | c :: r =>
      if c = quoteCh then
        match parseJsonStrAux (r.length + 1) [] r with
        | some (key, rest) =>
          (match skipJsonWs rest with
          | ':' :: rest2 =>
            match parseJsonValue fuel rest2 with
            | some (v, rest3) =>
              (match skipJsonWs rest3 with
              | c2 :: rest4 =>
                if c2 = rbraceCh then some (Json.objCons (String.mk key) v Json.objNil, rest4)
                else if c2 = ',' then
                  match parseJsonMembers fuel rest4 with
                  | some (tl, rest5) => some (Json.objCons (String.mk key) v tl, rest5)
                  | none => none
                else none
              | [] => none)
            | none => none
          | _ => none)
        | none => none
      else none

/-- Parse a JSON array body, after the opening bracket. -/
def parseJsonArr : Nat → List Char → Option (Json × List Char)
  | 0, _ => none
  | fuel + 1, input =>
    match skipJsonWs input with
    | [] => none
    | c :: r => if c = ']' then some (Json.arrNil, r) else parseJsonElems fuel (c :: r)

/-- Parse a nonempty element list of a JSON array. -/
def parseJsonElems : Nat → List Char → Option (Json × List Char)
  | 0, _ => none
  | fuel + 1, input =>
    match parseJsonValue fuel input with
    | some (v, rest) =>
      (match skipJsonWs rest with
      | c :: rest2 =>
        if c = ']' then some (Json.arrCons v Json.arrNil, rest2)
        else if c = ',' then
          match parseJsonElems fuel rest2 with
          | some (tl, rest3) => some (Json.arrCons v tl, rest3)
          | none => none
        else none
      | [] => none)
    | none => none

end

/-- Model of Python json.loads: strict parse of the whole text, none on
any parse error (json.JSONDecodeError). -/
def jsonLoads (l : List Char) : Option Json :=
  match parseJsonValue (2 * l.length + 8) l with
  | some (v, rest) => if skipJsonWs rest = [] then some v else none
  | none => none

/-! ## Extraction client (src/gemini_client.py, generate_clinical_summary)

The single external model call is modelled by a ModelResponse value: either
the call raised (network, auth, quota errors), or it returned a reply with
a text and an optional finish_reason of its first candidate.  Timestamps
are not modelled; the model name is a parameter. -/

/-- Outcome of the call self.model.generate_content([prompt, image]). -/
inductive ModelResponse where
  | raiseExc (msg : String)
  | reply (text : List Char) (finish : Option Nat)
deriving DecidableEq, Repr

/-- The fence marker three-backticks-json searched for by the parser. -/
def fenceJson : List Char := [backtickCh, backtickCh, backtickCh, 'j', 's', 'o', 'n']

/-- The plain three-backtick fence marker. -/
def fence3 : List Char := [backtickCh, backtickCh, backtickCh]

/-- Error message raised for an empty reply, chosen from the finish_reason
of the first candidate.  A finish_reason of 0 is falsy in Python, so it is
reported as an empty response, like an absent candidate list. -/
def blockMessage : Option Nat → String
  | some 2 => "Content was blocked by safety filters"
  | some 3 => "Content was blocked due to recitation"
  | some 0 => "Empty response from Gemini API"
  | some n => "Response blocked with reason: " ++ toString n
  | none => "Empty response from Gemini API"

/-- The result dict of generate_clinical_summary.  raw_response is absent
(none) in the error record built by the outermost exception handler. -/
structure SummaryData where
  summary : Json
  measurements : Json
  abnormalities : Json
  prescriptions : Json
  exercises : Json
  dietary : Json
  recommendations : Json
  raw_response : Option String
  model_used : String
  error : Option String
deriving DecidableEq, Repr

/-- The error record returned by the outermost exception handler of
generate_clinical_summary: error holds str(e), structured fields empty. -/
def errorRecord (model_used msg : String) : SummaryData :=
  { summary := Json.str ("Error analyzing image: " ++ msg)
    measurements := Json.objNil
    abnormalities := Json.arrNil
    prescriptions := Json.arrNil
    exercises := Json.arrNil
    dietary := Json.arrNil
    recommendations := Json.arrNil
    raw_response := none
    model_used := model_used
    error := some msg }

/-- Markdown fence stripping of gemini_client.py lines 142-149, applied to
the stripped reply text.  A membership test "x in s" is modelled as
pyFind s x being some index; Python t[a:-1] is t[a:len-1]. -/
def stripFencedBlock (t : List Char) : List Char :=
  match pyFind t fenceJson with
  | some i =>
    let json_start := i + 7
    (match pyFindFrom t fence3 json_start with
    | some json_end => pyStrip (pySlice t json_start json_end)
    | none => pyStrip (pySlice t json_start (t.length - 1)))
  | none =>
    match pyFind t fence3 with
    | some i =>
      let json_start := i + 3
      (match pyFindFrom t fence3 json_start with
      | some json_end => pyStrip (pySlice t json_start json_end)
      | none => pyStrip (pySlice t json_start (t.length - 1)))
    | none => t

/-- The response_text value reaching json.loads: the reply text stripped
of surrounding whitespace, then of an enclosing markdown fence. -/
def responseTextOf (text : List Char) : List Char := stripFencedBlock (pyStrip text)

/-- Python type name of a parsed JSON value, for the AttributeError that
dict.get raises on a non-dict (message quotes elided). -/
def pyTypeName : Json → String
  | Json.null => "NoneType"
  | Json.bool _ => "bool"
  | Json.num tok => if tok.data.any (fun c => c = '.' || c = 'e' || c = 'E') then "float" else "int"
  | Json.str _ => "str"
  | Json.arrNil => "list"
  | Json.arrCons _ _ => "list"
  | Json.objNil => "dict"
  | Json.objCons _ _ _ => "dict"

/-- Model of GeminiClient.generate_clinical_summary (gemini_client.py lines
56-193): classify empty replies, strip fences, parse JSON with the raw-text
fallback, read the seven fields with defaults, and catch every exception at
the outer boundary, turning it into an error record. -/
def generate_clinical_summary (model_used : String) (resp : ModelResponse) : SummaryData :=
  match resp with
  | ModelResponse.raiseExc msg => errorRecord model_used msg
  | ModelResponse.reply text finish =>
    if text = [] then errorRecord model_used (blockMessage finish)
    else
      let response_text := responseTextOf text
      let clinical_data :=
        match jsonLoads response_text with
        | some j => j
        | none =>
          Json.objCons "summary" (Json.str (String.mk response_text))
            (Json.objCons "measurements" Json.objNil
              (Json.objCons "abnormalities" Json.arrNil
                (Json.objCons "recommendations" Json.arrNil Json.objNil)))
      if clinical_data.isObj then
        { summary := clinical_data.objGet "summary" (Json.str (String.mk response_text))
          measurements := clinical_data.objGet "measurements" Json.objNil
          abnormalities := clinical_data.objGet "abnormalities" Json.arrNil
          prescriptions := clinical_data.objGet "prescriptions" Json.arrNil
          exercises := clinical_data.objGet "exercises" Json.arrNil
          dietary := clinical_data.objGet "dietary" Json.arrNil
          recommendations := clinical_data.objGet "recommendations" Json.arrNil
          raw_response := some (String.mk response_text)
          model_used := model_used
          error := none }
      else errorRecord model_used (pyTypeName clinical_data ++ " object has no attribute get")

/-! ## Scan orchestrator (src/app.py, scan_patient_folder)

The three collaborators used inside the loop are modelled as functions of
a ScanEnv; each Except.error models a raised exception.  Persistence calls
are recorded in an explicit trace of successful saves, so that the store
side effects of a scan are visible in the result. -/

/-- Image metadata mapping; empty list models the empty dict substituted
when get_image_metadata raises. -/
abbrev Metadata : Type := List (String × String)

/-- One argument tuple of a performed save_summary call. -/
abbrev SaveCall : Type := List Char × List Char × SummaryData × Metadata

/-- The collaborators called per image by scan_patient_folder. -/
structure ScanEnv (Img : Type) where
  download_image : List Char → Except String (Option Img)
  get_image_metadata : List Char → Except String Metadata
  generate_summary : Img → List Char → Except String SummaryData
  save_summary_call : List Char → List Char → SummaryData → Metadata → Except String String

/-- One entry of the results summaries list of a scan. -/
structure ScanSummaryEntry where
  image_path : List Char
  doc_id : String
  summary : Json
deriving DecidableEq, Repr

/-- The results dict built by scan_patient_folder. -/
structure ScanResults where
  patient_name : List Char
  total_images : Nat
  processed : Nat
  failed : Nat
  summaries : List ScanSummaryEntry
  errors : List (List Char × String)
deriving DecidableEq, Repr

/-- Record one per-image failure: bump failed, append to errors. -/
def addScanError (r : ScanResults) (image_path : List Char) (msg : String) : ScanResults :=
  { r with failed := r.failed + 1, errors := r.errors ++ [(image_path, msg)] }

/-- Record one per-image success: bump processed, append to summaries. -/
def addScanSuccess (r : ScanResults) (image_path : List Char) (doc_id : String) (s : Json) :
    ScanResults :=
  { r with processed := r.processed + 1,
           summaries := r.summaries ++ [{ image_path := image_path, doc_id := doc_id, summary := s }] }

/-- The metadata fetched for one image, with the empty mapping substituted
when get_image_metadata raises (app.py lines 518-522). -/
def metadataOf {Img : Type} (env : ScanEnv Img) (image_path : List Char) : Metadata :=
  match env.get_image_metadata image_path with
  | Except.ok m => m
  | Except.error _ => []

/-- The body of the per-image loop of scan_patient_folder (app.py lines
507-573): download (None or a raise fails the image), metadata (a raise
substitutes an empty mapping), extraction (a raise or an error-bearing
record fails the image, without persisting), persistence (a raise fails
the image), else success.  The accumulator carries the results dict and
the trace of performed saves. -/
def processImage {Img : Type} (env : ScanEnv Img) (patient : List Char)
    (acc : ScanResults × List SaveCall) (image_path : List Char) : ScanResults × List SaveCall :=
  let (r, calls) := acc
  match env.download_image image_path with
  | Except.error e => (addScanError r image_path ("Unexpected error: " ++ e), calls)
  | Except.ok none =>
    (addScanError r image_path ("Failed to download image: " ++ String.mk image_path), calls)
  | Except.ok (some img) =>
    let image_metadata := metadataOf env image_path
    match env.generate_summary img image_path with
    | Except.error e => (addScanError r image_path ("Gemini API error: " ++ e), calls)
    | Except.ok summary_data =>
      match summary_data.error with
      | some e => (addScanError r image_path ("Gemini API error: " ++ e), calls)
      | none =>
        match env.save_summary_call patient image_path summary_data image_metadata with
        | Except.error e => (addScanError r image_path ("Firestore save error: " ++ e), calls)
        | Except.ok doc_id =>
          (addScanSuccess r image_path doc_id summary_data.summary,
           calls ++ [(patient, image_path, summary_data, image_metadata)])

/-- Model of scan_patient_folder (app.py lines 478-583).  The listing is
an Except value: a raised listing exception leaves the initial zeroed
results dict, which is then returned.  The per-image loop is a strict
left fold over the listed images. -/
def scan_patient_folder {Img : Type} (env : ScanEnv Img) (patient : List Char)
    (listing : Except String (List (List Char))) : ScanResults × List SaveCall :=
  let results : ScanResults :=
    { patient_name := patient, total_images := 0, processed := 0, failed := 0,
      summaries := [], errors := [] }
  match listing with
  | Except.error _ => (results, [])
  | Except.ok images =>
    images.foldl (processImage env patient) ({ results with total_images := images.length }, [])

/-- Whether one image fails at some stage of the loop (download raise,
download None, extraction raise, error-bearing extraction, save raise).
A metadata failure alone does not fail the image. -/
def imageFails {Img : Type} (env : ScanEnv Img) (patient image_path : List Char) : Bool :=
  match env.download_image image_path with
  | Except.error _ => true
  | Except.ok none => true
  | Except.ok (some img) =>
    let image_metadata := metadataOf env image_path
    match env.generate_summary img image_path with
    | Except.error _ => true
    | Except.ok summary_data =>
      match summary_data.error with
      | some _ => true
      | none =>
        match env.save_summary_call patient image_path summary_data image_metadata with
        | Except.error _ => true
        | Except.ok _ => false

/-! ## Aggregation engine (src/app.py, generate_patient_analysis) -/

/-- One record as consumed by the aggregation engine: the measurement
mapping in insertion order and the five list-valued fields. -/
structure AnalysisRecord where
  measurements : List (String × String)
  abnormalities : List String
  prescriptions : List String
  exercises : List String
  dietary : List String
  recommendations : List String
deriving DecidableEq, Repr

/-- One step of dict.fromkeys insertion: append the key on first sight. -/
def dedupStep (acc : List String) (x : String) : List String :=
  if x ∈ acc then acc else acc ++ [x]

/-- Python list(dict.fromkeys(l)): order-preserving de-duplication keeping
the first occurrence of each string. -/
def pyDedup (l : List String) : List String := l.foldl dedupStep []

/-- Append one measurement value to the per-name value list, inserting the
name on first sight (the all_measurements loop of app.py lines 605-609). -/
def addMeasurement (acc : List (String × List String)) (kv : String × String) :
    List (String × List String) :=
  if acc.any (fun p => p.1 = kv.1) then
    acc.map (fun p => if p.1 = kv.1 then (p.1, p.2 ++ [kv.2]) else p)
  else acc ++ [(kv.1, [kv.2])]

/-- The analysis dict built by generate_patient_analysis. -/
structure PatientAnalysis where
  total_reports : Nat
  measurements : List (String × List String)
  abnormalities : List String
  prescriptions : List String
  exercises : List String
  dietary : List String
  recommendations : List String
  summary_text : String
deriving DecidableEq, Repr

/-- Model of generate_patient_analysis (app.py lines 585-644): an empty
input returns the empty dict (none here); otherwise the measurement
values are accumulated per name and the five list fields are concatenated
in input order and de-duplicated keeping first occurrences. -/
def generate_patient_analysis (summaries : List AnalysisRecord) : Option PatientAnalysis :=
  if summaries = [] then none
  else some
    { total_reports := summaries.length
      measurements := summaries.foldl (fun acc r => r.measurements.foldl addMeasurement acc) []
      abnormalities := pyDedup (summaries.foldl (fun acc r => acc ++ r.abnormalities) [])
      prescriptions := pyDedup (summaries.foldl (fun acc r => acc ++ r.prescriptions) [])
      exercises := pyDedup (summaries.foldl (fun acc r => acc ++ r.exercises) [])
      dietary := pyDedup (summaries.foldl (fun acc r => acc ++ r.dietary) [])
      recommendations := pyDedup (summaries.foldl (fun acc r => acc ++ r.recommendations) [])
      summary_text := "Comprehensive analysis based on " ++ toString summaries.length ++ " report(s)." }

/-! ## Record store adapter (src/firestore_client.py)

The document collection is modelled as an association list from document
id to document data; doc_ref.set is an insert-or-overwrite on the id.
Server timestamps are a string parameter.  The read operations take the
outcome of the underlying stream as an Except value: an error models a
raised store exception. -/

/-- The document written by FirestoreClient.save_summary (lines 56-78).
image_metadata is included only when truthy (neither absent nor empty);
error is included exactly when the summary carries one. -/
structure DocData where
  patient_name : List Char
  image_name : List Char
  image_path : List Char
  summary : Json
  measurements : Json
  abnormalities : Json
  prescriptions : Json
  exercises : Json
  dietary : Json
  recommendations : Json
  created_at : String
  updated_at : String
  model_used : String
  image_metadata : Option Metadata
  error : Option String
deriving DecidableEq, Repr

/-- Firestore doc_ref.set on one collection: overwrite the document with
this id if present, else append it. -/
def storeSet (s : List (String × DocData)) (k : String) (v : DocData) :
    List (String × DocData) :=
  if s.any (fun p => p.1 = k) then s.map (fun p => if p.1 = k then (k, v) else p)
  else s ++ [(k, v)]

/-- The doc_data dict built by FirestoreClient.save_summary lines 56-78. -/
def saveDocData (patient_name image_name : List Char) (summary_data : SummaryData)
    (image_metadata : Option Metadata) (server_ts : String) : DocData :=
  { patient_name := patient_name
    image_name := pyLastSegment image_name
    image_path := image_name
    summary := summary_data.summary
    measurements := summary_data.measurements
    abnormalities := summary_data.abnormalities
    prescriptions := summary_data.prescriptions
    exercises := summary_data.exercises
    dietary := summary_data.dietary
    recommendations := summary_data.recommendations
    created_at := server_ts
    updated_at := server_ts
    model_used := summary_data.model_used
    image_metadata :=
      match image_metadata with
      | some m => if m = [] then none else some m
      | none => none
    error := summary_data.error }

/-- Model of FirestoreClient.save_summary (lines 32-90): the document id
is patient_name, an underscore, and the filename portion of the image
path; the write is an upsert on that id. -/
def save_summary (store : List (String × DocData)) (patient_name image_name : List Char)
    (summary_data : SummaryData) (image_metadata : Option Metadata) (server_ts : String) :
    String × List (String × DocData) :=
  let doc_id := String.mk patient_name ++ "_" ++ String.mk (pyLastSegment image_name)
  (doc_id, storeSet store doc_id (saveDocData patient_name image_name summary_data image_metadata server_ts))

/-- Lookup of a stored document by id (first match). -/
def storeGet (s : List (String × DocData)) (k : String) : Option DocData :=
  (s.find? (fun p => p.1 = k)).map Prod.snd

/-- A stored document as consumed by the read operations: the fields they
inspect, with the shape the pipeline writes (summary text, measurement
name-value mapping, abnormality strings, patient name, creation time). -/
structure ReadDoc where
  patient_name : String
  summary : String
  measurements : List (String × String)
  abnormalities : List String
  created_at : String
deriving DecidableEq, Repr

/-! ### The measurement query matcher (firestore_client.py lines 206-258)

The two regular expressions are specialised backtracking matchers over the
lowercased query.  Word characters, whitespace and the operator class are
pairwise disjoint, so the first pattern needs no backtracking; the second
pattern backtracks inside the word run, yielding the longest word part
followed by at least one digit.  Numeric literals are modelled as
rationals. -/

/-- Python regex word character (ASCII). -/
def isWordCh (c : Char) : Bool := c.isAlphanum || c = '_'

/-- Comparator characters of the first pattern. -/
def isOpCh (c : Char) : Bool := c = '<' || c = '>' || c = '='

/-- Match the first pattern word-ws-ops-ws-digits at the start of s,
returning the word, operator and digit groups. -/
def matchP1At (s : List Char) : Option (List Char × List Char × List Char) :=
  let (w, s1) := s.span isWordCh
  if w = [] then none
  else
    let s2 := s1.dropWhile isPySpace
    let (o, s3) := s2.span isOpCh
    if o = [] then none
    else
      let s4 := s3.dropWhile isPySpace
      let (d, _) := s4.span Char.isDigit
      if d = [] then none else some (w, o, d)

/-- re.search of the first pattern: the leftmost start position where it
matches. -/
def searchP1 : List Char → Option (List Char × List Char × List Char)
  | [] => none
  | c :: t =>
    match matchP1At (c :: t) with
    | some r => some r
    | none => searchP1 t

/-- Backtracking split for the second pattern: the largest proper split of
the word run whose right part starts with a digit. -/
def backtrackSplit (w : List Char) : Option (List Char × List Char) :=
  (List.range w.length).reverse.findSome? (fun j =>
    if 1 ≤ j then
      match w.drop j with
      | c :: _ => if c.isDigit then some (w.take j, (w.drop j).takeWhile Char.isDigit) else none
      | [] => none
    else none)

/-- Match the second pattern word-ws-digits at the start of s, with the
greedy word group backtracking into its own digits if needed. -/
def matchP2At (s : List Char) : Option (List Char × List Char) :=
  let (w, s1) := s.span isWordCh
  if w = [] then none
  else
    let s2 := s1.dropWhile isPySpace
    let (d, _) := s2.span Char.isDigit
    if d ≠ [] then some (w, d) else backtrackSplit w

/-- re.search of the second pattern: the leftmost start position where it
matches. -/
def searchP2 : List Char → Option (List Char × List Char)
  | [] => none
  | c :: t =>
    match matchP2At (c :: t) with
    | some r => some r
    | none => searchP2 t

/-- Numeric value of a digit run. -/
def natOfDigits (l : List Char) : Nat := l.foldl (fun n c => 10 * n + (c.toNat - 48)) 0

/-- First match of the number pattern digits-dot-digits in a measurement
value string (re.findall index 0 of lines 243-245), as an exact decimal
fraction: the pair (n, k) denotes the number n divided by ten to the k. -/
def firstNumToken : List Char → Option (Nat × Nat)
  | [] => none
  | c :: t =>
    if c.isDigit then
      let ip := (c :: t).takeWhile Char.isDigit
      let r := (c :: t).dropWhile Char.isDigit
      let fp :=
        match r with
        | '.' :: r2 => r2.takeWhile Char.isDigit
        | _ => []
      some (natOfDigits (ip ++ fp), fp.length)
    else firstNumToken t

/-- The decimal fraction (n, k) is strictly below the integer value. -/
def decimalLt (n k value : Nat) : Bool := n < value * 10 ^ k

/-- The decimal fraction (n, k) is strictly above the integer value. -/
def decimalGt (n k value : Nat) : Bool := n > value * 10 ^ k

/-- The decimal fraction (n, k) is within the 0.1 tolerance of the integer
value: ten times the absolute difference is below ten to the k.  This is
abs(meas_num - value) < 0.1 in exact arithmetic. -/
def decimalNear (n k value : Nat) : Bool :=
  10 * ((n : Int) - (value : Int) * 10 ^ k).natAbs < 10 ^ k

/-- The inner loop over the measurement mapping (lines 240-256), for one
parsed query: a measurement matches when its lowercased name contains the
parameter and its leading numeric token satisfies the comparison.  The
comparison chain reproduces the source conditions with Python operator
precedence: the equality branch is op equals "=", or op equals "==" and
the difference is below the 0.1 tolerance. -/
def measurementLoop (param : List Char) (op : Option (List Char)) (value : Nat)
    (measurements : List (String × String)) : Bool :=
  measurements.any (fun kv =>
    if pyContainsSub (pyLower kv.1.data) param then
      match firstNumToken kv.2.data with
      | some (n, k) =>
        (match op with
        | some o =>
          if o = ['<'] ∧ decimalLt n k value = true then true
          else if o = ['>'] ∧ decimalGt n k value = true then true
          else if o = ['='] ∨ (o = ['=', '='] ∧ decimalNear n k value = true) then true
          else false
        | none => decimalNear n k value)
      | none => false
    else false)

/-- Model of FirestoreClient._matches_measurement_query (lines 206-258):
try the comparator pattern, then the plain word-number pattern, on the
lowercased query; each parsed pattern is checked against every
measurement, and the next pattern is tried if no measurement matched. -/
def matches_measurement_query (query : String) (measurements : List (String × String)) : Bool :=
  let query_lower := pyLower query.data
  let viaP1 :=
    match searchP1 query_lower with
    | some (param, op, digits) => measurementLoop param (some op) (natOfDigits digits) measurements
    | none => false
  if viaP1 then true
  else
    match searchP2 query_lower with
    | some (param, digits) => measurementLoop param none (natOfDigits digits) measurements
    | none => false

/-- Stable insertion of a document into a list sorted by created_at
descending (Python list.sort with reverse=True is stable). -/
def insertByCreatedDesc (x : ReadDoc) : List ReadDoc → List ReadDoc
  | [] => [x]
  | y :: t =>
    if y.created_at ≤ x.created_at then x :: y :: t else y :: insertByCreatedDesc x t

/-- Client-side sort of summaries by creation time, newest first. -/
def sortByCreatedDesc : List ReadDoc → List ReadDoc
  | [] => []
  | x :: t => insertByCreatedDesc x (sortByCreatedDesc t)

/-- Model of FirestoreClient.get_patient_summaries (lines 92-143): filter
by exact patient match, sort newest first on the client; any raised store
exception yields the empty list.  Document-id attachment and timestamp
formatting are identity on this document model and are omitted. -/
def get_patient_summaries (stream : Except String (List ReadDoc)) (patient_name : String) :
    List ReadDoc :=
  match stream with
  | Except.error _ => []
  | Except.ok docs => sortByCreatedDesc (docs.filter (fun d => d.patient_name = patient_name))

/-- Keep the first document per patient, in encounter order (the
unique_patients dict of lines 193-200). -/
def dedupByPatient (l : List ReadDoc) : List ReadDoc :=
  (l.foldl
    (fun acc d =>
      if acc.any (fun p => p.1 = d.patient_name) then acc else acc ++ [(d.patient_name, d)])
    ([] : List (String × ReadDoc))).map Prod.snd

/-- Model of FirestoreClient.search_by_nl_query (lines 145-204): full scan
in stream order; a document matches on its summary substring, its
measurements, or an abnormality substring; results are de-duplicated by
patient keeping the first match; any raised store exception yields the
empty list. -/
def search_by_nl_query (stream : Except String (List ReadDoc)) (query_text : String) :
    List ReadDoc :=
  match stream with
  | Except.error _ => []
  | Except.ok docs =>
    let query_lower := pyLower query_text.data
    dedupByPatient (docs.filter (fun d =>
      pyContainsSub (pyLower d.summary.data) query_lower
      || matches_measurement_query query_text d.measurements
      || d.abnormalities.any (fun a => pyContainsSub (pyLower a.data) query_lower)))

/-- Stable insertion into an ascending string list. -/
def insertStrAsc (x : String) : List String → List String
  | [] => [x]
  | y :: t => if x ≤ y then x :: y :: t else y :: insertStrAsc x t

/-- Ascending sort of strings (Python sorted). -/
def sortStrAsc : List String → List String
  | [] => []
  | x :: t => insertStrAsc x (sortStrAsc t)

/-- Model of FirestoreClient.get_all_patients (lines 260-279): the sorted
set of truthy patient names over a full scan; any raised store exception
yields the empty list. -/
def get_all_patients (stream : Except String (List ReadDoc)) : List String :=
  match stream with
  | Except.error _ => []
  | Except.ok docs =>
    sortStrAsc (pyDedup (docs.filterMap
      (fun d => if d.patient_name = "" then none else some d.patient_name)))

/-! ## Claims -/

/-- C3: extraction is total at its public boundary.  A raised model-call
exception (network, auth, quota) yields the error record whose error field
is the stringified cause and whose structured fields are all empty; an
empty reply (blocked or not) likewise yields an error record built from
the block classification; in particular a safety-blocked empty reply
carries the visible non-empty safety message.  generate_clinical_summary
is a total Lean function of the call outcome, so no exception propagates
to the caller. -/
theorem extraction_total_at_boundary :
    ∀ (model msg : String) (finish : Option Nat),
      generate_clinical_summary model (ModelResponse.raiseExc msg) = errorRecord model msg
      ∧ (generate_clinical_summary model (ModelResponse.raiseExc msg)).error = some msg
      ∧ (errorRecord model msg).measurements = Json.objNil
      ∧ (errorRecord model msg).abnormalities = Json.arrNil
      ∧ (errorRecord model msg).prescriptions = Json.arrNil
      ∧ (errorRecord model msg).exercises = Json.arrNil
      ∧ (errorRecord model msg).dietary = Json.arrNil
      ∧ (errorRecord model msg).recommendations = Json.arrNil
      ∧ generate_clinical_summary model (ModelResponse.reply [] finish)
          = errorRecord model (blockMessage finish)
      ∧ (generate_clinical_summary model (ModelResponse.reply [] (some 2))).error
          = some "Content was blocked by safety filters" := by
  intro model msg finish
  refine ⟨rfl, rfl, rfl, rfl, rfl, rfl, rfl, rfl, rfl, rfl⟩

/-- C4: the code does not implement the 0.1 equality tolerance.  Because
of Python operator precedence in line 251 of firestore_client.py, a query
with operator "=" matches as soon as some measurement name contains the
parameter and carries any leading numeric token: the query "bp = 200"
matches the measurement BP = 120/80 mmHg although the leading token 120
is far outside the 0.1 tolerance of 200 (the intended conjunction is
applied only to the "==" spelling of the operator). -/
theorem equality_tolerance_bypassed :
    matches_measurement_query "bp = 200" [("BP", "120/80 mmHg")] = true
    ∧ decimalNear 120 0 200 = false
    ∧ matches_measurement_query "bp == 200" [("BP", "120/80 mmHg")] = false := by
  exact ⟨by decide, by decide, by decide⟩

/-- C9: every read operation of the record store adapter returns the empty
list when the underlying stream raises, and an empty result is exactly
what a store with no matching records produces: filtering a stream with no
document of the requested patient also returns the empty list, as do the
other two operations on an empty stream. -/
theorem read_operations_error_yields_empty :
    ∀ (e patient query : String) (docs : List ReadDoc),
      get_patient_summaries (Except.error e) patient = []
      ∧ search_by_nl_query (Except.error e) query = []
      ∧ get_all_patients (Except.error e) = []
      ∧ ((∀ d ∈ docs, d.patient_name ≠ patient) →
          get_patient_summaries (Except.ok docs) patient = [])
      ∧ search_by_nl_query (Except.ok []) query = []
      ∧ get_all_patients (Except.ok []) = [] := by
  intro e patient query docs
  refine ⟨rfl, rfl, rfl, ?_, rfl, rfl⟩
  intro h
  have hf : docs.filter (fun d => d.patient_name = patient) = [] := by
    apply List.filter_eq_nil_iff.mpr
    intro d hd
    simpa using h d hd
  simp [get_patient_summaries, hf, sortByCreatedDesc]

/-- Witness for C9 at concrete inputs: a store error and a stream holding
one document of another patient both read back as no records. -/
theorem read_operations_error_yields_empty_witness :
    get_patient_summaries (Except.error "connection refused") "alice" = []
    ∧ get_patient_summaries
        (Except.ok [{ patient_name := "bob", summary := "ok", measurements := [],
                      abnormalities := [], created_at := "2024" }]) "alice" = [] := by
  have h := read_operations_error_yields_empty "connection refused" "alice" "bp < 80"
    [{ patient_name := "bob", summary := "ok", measurements := [],
       abnormalities := [], created_at := "2024" }]
  exact ⟨h.1, h.2.2.2.1 (by decide)⟩

/-- C10: when the stripped reply contains an opening fence marker but no
closing fence after it, the parser does not fall back to the raw text: the
text handed to json.loads is the substring from just after the marker to
one character before the end of the reply, because the failed find of the
closing fence returns -1 and Python t[a:-1] drops the final character.
Both the json-tagged marker and the plain marker behave this way. -/
theorem unclosed_fence_parses_truncated_tail :
    ∀ (t : List Char) (i : Nat),
      (pyFind (pyStrip t) fenceJson = some i →
        pyFindFrom (pyStrip t) fence3 (i + 7) = none →
        responseTextOf t = pyStrip (pySlice (pyStrip t) (i + 7) ((pyStrip t).length - 1)))
      ∧ (pyFind (pyStrip t) fenceJson = none →
        pyFind (pyStrip t) fence3 = some i →
        pyFindFrom (pyStrip t) fence3 (i + 3) = none →
        responseTextOf t = pyStrip (pySlice (pyStrip t) (i + 3) ((pyStrip t).length - 1))) := by
  intro t i
  constructor
  · intro h1 h2
    simp [responseTextOf, stripFencedBlock, h1, h2]
  · intro h1 h2 h3
    simp [responseTextOf, stripFencedBlock, h1, h2, h3]

/-- A reply whose fence marker is never closed. -/
def unclosedFenceSample : List Char := fenceJson ++ (" \x7b\"x\": 1\x7d" : String).data

/-- Witness for C10: on a concrete unclosed-fence reply the parsed text is
the truncated tail, which here loses the closing brace of the payload. -/
theorem unclosed_fence_parses_truncated_tail_witness :
    responseTextOf unclosedFenceSample
      = pyStrip (pySlice (pyStrip unclosedFenceSample) 7 ((pyStrip unclosedFenceSample).length - 1))
    ∧ responseTextOf unclosedFenceSample = ("\x7b\"x\": 1" : String).data := by
  refine ⟨(unclosed_fence_parses_truncated_tail unclosedFenceSample 0).1 (by decide) (by decide), ?_⟩
  decide

/-! ### Properties of the first-occurrence de-duplication -/

/-- Folding extension over records is concatenation in input order. -/
theorem foldl_append_eq_flatMap {α : Type} (f : α → List String) :
    ∀ (ss : List α) (init : List String),
      ss.foldl (fun acc r => acc ++ f r) init = init ++ ss.flatMap f
  | [], init => by simp
  | r :: t, init => by
    simp only [List.foldl_cons, List.flatMap_cons, foldl_append_eq_flatMap f t,
      List.append_assoc]

/-- Elements already collected are skipped by the insertion fold. -/
theorem foldl_dedupStep_skip :
    ∀ (l acc : List String) (y : String), y ∈ acc →
      l.foldl dedupStep acc = (l.filter (fun z => z ≠ y)).foldl dedupStep acc
  | [], _, _, _ => rfl
  | c :: t, acc, y, hy => by
    by_cases hc : c = y
    · subst hc
      have h1 : dedupStep acc c = acc := by simp [dedupStep, hy]
      have h2 : (c :: t).filter (fun z => z ≠ c) = t.filter (fun z => z ≠ c) := by
        simp [List.filter_cons]
      rw [h2, List.foldl_cons, h1]
      exact foldl_dedupStep_skip t acc c hy
    · have hkeep : (c :: t).filter (fun z => z ≠ y) = c :: t.filter (fun z => z ≠ y) := by
        simp [List.filter_cons, hc]
      rw [hkeep, List.foldl_cons, List.foldl_cons]
      refine foldl_dedupStep_skip t (dedupStep acc c) y ?_
      unfold dedupStep
      by_cases hmem : c ∈ acc <;> simp [hmem, hy]

/-- An element absent from the remaining input floats out of the
accumulator of the insertion fold. -/
theorem foldl_dedupStep_cons_out :
    ∀ (l acc : List String) (x : String), (∀ y ∈ l, y ≠ x) →
      l.foldl dedupStep (x :: acc) = x :: l.foldl dedupStep acc
  | [], _, _, _ => rfl
  | c :: t, acc, x, h => by
    have hc : c ≠ x := h c (by simp)
    have hstep : dedupStep (x :: acc) c = x :: dedupStep acc c := by
      unfold dedupStep
      by_cases hmem : c ∈ acc
      · simp [hmem, List.mem_cons]
      · have : ¬ c ∈ x :: acc := by simp [List.mem_cons, hc, hmem]
        simp [hmem, this]
    rw [List.foldl_cons, List.foldl_cons, hstep]
    exact foldl_dedupStep_cons_out t (dedupStep acc c) x (fun y hy => h y (by simp [hy]))

/-- The defining recursion of first-occurrence de-duplication: the head is
kept and all its later duplicates are discarded. -/
theorem pyDedup_cons (x : String) (l : List String) :
    pyDedup (x :: l) = x :: pyDedup (l.filter (fun z => z ≠ x)) := by
  unfold pyDedup
  rw [List.foldl_cons]
  have h0 : dedupStep [] x = [x] := by simp [dedupStep]
  rw [h0, foldl_dedupStep_skip l [x] x (by simp)]
  exact foldl_dedupStep_cons_out _ [] x (fun y hy => by
    have := List.of_mem_filter hy
    simpa using this)

/-- Membership through the insertion fold. -/
theorem mem_foldl_dedupStep :
    ∀ (l acc : List String) (z : String), z ∈ l.foldl dedupStep acc ↔ z ∈ acc ∨ z ∈ l
  | [], acc, z => by simp
  | c :: t, acc, z => by
    rw [List.foldl_cons, mem_foldl_dedupStep t (dedupStep acc c) z]
    unfold dedupStep
    by_cases hmem : c ∈ acc
    · simp only [hmem, if_true, List.mem_cons]
      constructor
      · rintro (hz | hz)
        · exact Or.inl hz
        · exact Or.inr (Or.inr hz)
      · rintro (hz | hz | hz)
        · exact Or.inl hz
        · exact Or.inl (hz ▸ hmem)
        · exact Or.inr hz
    · simp only [hmem, if_false, List.mem_append, List.mem_singleton, List.mem_cons]
      tauto

/-- The insertion fold never builds a duplicate. -/
theorem nodup_foldl_dedupStep :
    ∀ (l acc : List String), acc.Nodup → (l.foldl dedupStep acc).Nodup
  | [], _, h => h
  | c :: t, acc, h => by
    rw [List.foldl_cons]
    refine nodup_foldl_dedupStep t (dedupStep acc c) ?_
    unfold dedupStep
    by_cases hmem : c ∈ acc
    · simpa [hmem]
    · simp [hmem, List.nodup_append, h]

/-- pyDedup returns a duplicate-free list. -/
theorem pyDedup_nodup (l : List String) : (pyDedup l).Nodup :=
  nodup_foldl_dedupStep l [] List.nodup_nil

/-- pyDedup preserves exactly the members of its input. -/
theorem pyDedup_mem (l : List String) (z : String) : z ∈ pyDedup l ↔ z ∈ l := by
  simpa using mem_foldl_dedupStep l [] z

/-- The two-record example of the spec: abnormality lists A,B and B,C. -/
def sampleRecordA : AnalysisRecord :=
  { measurements := [], abnormalities := ["A", "B"], prescriptions := [],
    exercises := [], dietary := [], recommendations := [] }

/-- Second record of the spec example. -/
def sampleRecordB : AnalysisRecord :=
  { measurements := [], abnormalities := ["B", "C"], prescriptions := [],
    exercises := [], dietary := [], recommendations := [] }

/-- C7: for a nonempty record list, each of the five list-valued outputs
of the aggregation engine is the concatenation of the per-record lists in
input order, de-duplicated by exact string equality keeping only first
occurrences: pyDedup satisfies the first-occurrence recursion, is
duplicate-free and preserves membership; and the spec example with
abnormality lists A,B and B,C aggregates to A,B,C. -/
theorem aggregation_unions_dedup_first_seen :
    ∀ (summaries : List AnalysisRecord), summaries ≠ [] →
      ((generate_patient_analysis summaries).map PatientAnalysis.abnormalities
          = some (pyDedup (summaries.flatMap AnalysisRecord.abnormalities))
        ∧ (generate_patient_analysis summaries).map PatientAnalysis.prescriptions
          = some (pyDedup (summaries.flatMap AnalysisRecord.prescriptions))
        ∧ (generate_patient_analysis summaries).map PatientAnalysis.exercises
          = some (pyDedup (summaries.flatMap AnalysisRecord.exercises))
        ∧ (generate_patient_analysis summaries).map PatientAnalysis.dietary
          = some (pyDedup (summaries.flatMap AnalysisRecord.dietary))
        ∧ (generate_patient_analysis summaries).map PatientAnalysis.recommendations
          = some (pyDedup (summaries.flatMap AnalysisRecord.recommendations)))
      ∧ (∀ (x : String) (l : List String),
          pyDedup (x :: l) = x :: pyDedup (l.filter (fun z => z ≠ x)))
      ∧ (∀ l : List String, (pyDedup l).Nodup)
      ∧ (∀ (l : List String) (z : String), z ∈ pyDedup l ↔ z ∈ l)
      ∧ (generate_patient_analysis [sampleRecordA, sampleRecordB]).map
          PatientAnalysis.abnormalities = some ["A", "B", "C"] := by
  intro summaries h
  refine ⟨⟨?_, ?_, ?_, ?_, ?_⟩, pyDedup_cons, pyDedup_nodup, pyDedup_mem, by decide⟩ <;>
    simp [generate_patient_analysis, h, foldl_append_eq_flatMap]

/-- Witness for C7 at the spec example records. -/
theorem aggregation_unions_dedup_first_seen_witness :
    (generate_patient_analysis [sampleRecordA, sampleRecordB]).map PatientAnalysis.abnormalities
      = some (pyDedup ([sampleRecordA, sampleRecordB].flatMap AnalysisRecord.abnormalities))
    ∧ (generate_patient_analysis [sampleRecordA, sampleRecordB]).map PatientAnalysis.abnormalities
      = some ["A", "B", "C"] := by
  have h := aggregation_unions_dedup_first_seen [sampleRecordA, sampleRecordB] (by decide)
  exact ⟨h.1.1, h.2.2.2.2⟩

/-! ### Properties of the split-based filename extraction and the upsert -/

/-- The split accumulator distributes out. -/
theorem pySplitAux_append_acc (sep : Char) :
    ∀ (l cur : List Char) (acc : List (List Char)),
      pySplitAux sep cur acc l = acc ++ pySplitAux sep cur [] l
  | [], cur, acc => by simp [pySplitAux]
  | c :: t, cur, acc => by
    by_cases hc : c = sep
    · simp only [pySplitAux, hc, if_true]
      rw [pySplitAux_append_acc sep t [] (acc ++ [cur]),
        pySplitAux_append_acc sep t [] ([] ++ [cur])]
      simp
    · simp only [pySplitAux, hc, if_false]
      exact pySplitAux_append_acc sep t (cur ++ [c]) acc

/-- Splitting a text free of the separator yields one segment. -/
theorem pySplitAux_no_sep (sep : Char) :
    ∀ (l cur : List Char) (acc : List (List Char)), (∀ c ∈ l, c ≠ sep) →
      pySplitAux sep cur acc l = acc ++ [cur ++ l]
  | [], cur, acc, _ => by simp [pySplitAux]
  | c :: t, cur, acc, h => by
    have hc : c ≠ sep := h c (by simp)
    simp only [pySplitAux, hc, if_false]
    rw [pySplitAux_no_sep sep t (cur ++ [c]) acc (fun x hx => h x (by simp [hx]))]
    simp

/-- The last list element of an append ending in a singleton. -/
theorem getLastD_append_singleton {α : Type} (l : List α) (x d : α) :
    (l ++ [x]).getLastD d = x := by
  simp [List.getLastD_eq_getLast?]

/-- Helper: the last split segment of a text ending in sep-free b after a
separator is b, whatever was accumulated before. -/
theorem pySplitAux_getLastD_concat (b : List Char) (hb : ∀ c ∈ b, c ≠ '/') :
    ∀ (a cur : List Char) (acc : List (List Char)),
      (pySplitAux '/' cur acc (a ++ '/' :: b)).getLastD [] = b
  | [], cur, acc => by
    have : pySplitAux '/' cur acc ('/' :: b) = pySplitAux '/' [] (acc ++ [cur]) b := by
      simp [pySplitAux]
    rw [List.nil_append, this, pySplitAux_no_sep '/' b [] (acc ++ [cur]) hb]
    rw [List.nil_append]
    exact getLastD_append_singleton _ b []
  | c :: a, cur, acc => by
    by_cases hc : c = '/'
    · rw [List.cons_append]
      simp only [pySplitAux, hc, if_true]
      exact pySplitAux_getLastD_concat b hb a [] (acc ++ [cur])
    · rw [List.cons_append]
      simp only [pySplitAux, hc, if_false]
      exact pySplitAux_getLastD_concat b hb a (cur ++ [c]) acc

/-- The filename portion: the text after the last separator. -/
theorem pyLastSegment_concat (a b : List Char) (hb : ∀ c ∈ b, c ≠ '/') :
    pyLastSegment (a ++ '/' :: b) = b :=
  pySplitAux_getLastD_concat b hb a [] []

/-- A separator-free path is its own filename. -/
theorem pyLastSegment_no_sep (s : List Char) (hs : ∀ c ∈ s, c ≠ '/') :
    pyLastSegment s = s := by
  unfold pyLastSegment pySplit
  rw [pySplitAux_no_sep '/' s [] [] hs]
  simp

/-- A key occurs among the store keys iff some entry carries it. -/
theorem storeAny_iff_mem_keys (s : List (String × DocData)) (k : String) :
    s.any (fun p => p.1 = k) = true ↔ k ∈ s.map Prod.fst := by
  simp only [List.any_eq_true, List.mem_map, decide_eq_true_eq]

/-- Overwriting an existing key leaves the key list unchanged. -/
theorem storeSet_keys_of_any (s : List (String × DocData)) (k : String) (v : DocData)
    (h : s.any (fun p => p.1 = k) = true) :
    (storeSet s k v).map Prod.fst = s.map Prod.fst := by
  simp only [storeSet, h, if_true, List.map_map]
  apply List.map_congr_left
  intro p _
  by_cases hp : p.1 = k <;> simp [hp]

/-- Inserting a fresh key appends it to the key list. -/
theorem storeSet_keys_of_not_any (s : List (String × DocData)) (k : String) (v : DocData)
    (h : ¬ s.any (fun p => p.1 = k) = true) :
    (storeSet s k v).map Prod.fst = s.map Prod.fst ++ [k] := by
  simp [storeSet, h]

/-- After an overwrite of an existing key, lookup returns the new value. -/
theorem storeGet_storeSet_of_any :
    ∀ (s : List (String × DocData)) (k : String) (v : DocData),
      s.any (fun p => p.1 = k) = true → storeGet (storeSet s k v) k = some v
  | [], k, v, h => by simp at h
  | p :: t, k, v, h => by
    by_cases hp : p.1 = k
    · simp [storeSet, storeGet, List.any_cons, hp, List.find?_cons]
    · have ht : t.any (fun q => q.1 = k) = true := by
        simp only [List.any_cons, hp] at h
        simpa using h
      have hs : storeSet (p :: t) k v
          = p :: (t.map (fun q => if q.1 = k then (k, v) else q)) := by
        simp only [storeSet, List.any_cons, hp]
        simp [ht, hp]
      rw [hs]
      have hrec := storeGet_storeSet_of_any t k v ht
      simp only [storeSet, ht, if_true] at hrec
      simp only [storeGet, List.find?_cons, hp, decide_eq_true_eq] at hrec ⊢
      simpa [hp] using hrec

/-- The stored length is unchanged by an overwrite. -/
theorem storeSet_length_of_any (s : List (String × DocData)) (k : String) (v : DocData)
    (h : s.any (fun p => p.1 = k) = true) :
    (storeSet s k v).length = s.length := by
  simp [storeSet, h]

/-- C8: the persisted record id is deterministically the patient name, an
underscore and the filename portion of the image reference (the text
after the last slash), and persistence is an upsert on that id: with a
duplicate-free store, saving the same patient and image twice yields the
same id, exactly one stored document under that id, no growth on the
second write, and the second document wins. -/
theorem save_summary_upsert_deterministic_id :
    ∀ (store : List (String × DocData)) (patient image : List Char)
      (sd1 sd2 : SummaryData) (md1 md2 : Option Metadata) (ts1 ts2 : String),
      (store.map Prod.fst).Nodup →
      ((save_summary store patient image sd1 md1 ts1).1
          = String.mk patient ++ "_" ++ String.mk (pyLastSegment image))
      ∧ ((save_summary (save_summary store patient image sd1 md1 ts1).2
            patient image sd2 md2 ts2).1
          = (save_summary store patient image sd1 md1 ts1).1)
      ∧ (((save_summary (save_summary store patient image sd1 md1 ts1).2
            patient image sd2 md2 ts2).2.map Prod.fst).count
          (String.mk patient ++ "_" ++ String.mk (pyLastSegment image)) = 1)
      ∧ ((save_summary (save_summary store patient image sd1 md1 ts1).2
            patient image sd2 md2 ts2).2.length
          = (save_summary store patient image sd1 md1 ts1).2.length)
      ∧ (storeGet (save_summary (save_summary store patient image sd1 md1 ts1).2
            patient image sd2 md2 ts2).2
            (String.mk patient ++ "_" ++ String.mk (pyLastSegment image))
          = some (saveDocData patient image sd2 md2 ts2))
      ∧ (∀ a b : List Char, (∀ c ∈ b, c ≠ '/') → pyLastSegment (a ++ '/' :: b) = b)
      ∧ ((∀ c ∈ image, c ≠ '/') → pyLastSegment image = image) := by
  intro store patient image sd1 sd2 md1 md2 ts1 ts2 hnodup
  set k := String.mk patient ++ "_" ++ String.mk (pyLastSegment image) with hk
  set d1 := saveDocData patient image sd1 md1 ts1
  set d2 := saveDocData patient image sd2 md2 ts2
  have hs1 : (save_summary store patient image sd1 md1 ts1).2 = storeSet store k d1 := rfl
  have hmem1 : k ∈ (storeSet store k d1).map Prod.fst := by
    by_cases h : store.any (fun p => p.1 = k) = true
    · rw [storeSet_keys_of_any store k d1 h]
      exact (storeAny_iff_mem_keys store k).mp h
    · rw [storeSet_keys_of_not_any store k d1 h]
      simp
  have hcount1 : ((storeSet store k d1).map Prod.fst).count k = 1 := by
    by_cases h : store.any (fun p => p.1 = k) = true
    · rw [storeSet_keys_of_any store k d1 h]
      exact List.count_eq_one_of_mem hnodup ((storeAny_iff_mem_keys store k).mp h)
    · rw [storeSet_keys_of_not_any store k d1 h]
      have hnot : k ∉ store.map Prod.fst := fun hm =>
        h ((storeAny_iff_mem_keys store k).mpr hm)
      rw [List.count_append]
      simp [List.count_eq_zero.mpr hnot]
  have hany1 : (storeSet store k d1).any (fun p => p.1 = k) = true :=
    (storeAny_iff_mem_keys _ k).mpr hmem1
  have hs2 : (save_summary (save_summary store patient image sd1 md1 ts1).2
      patient image sd2 md2 ts2).2 = storeSet (storeSet store k d1) k d2 := rfl
  refine ⟨rfl, rfl, ?_, ?_, ?_, pyLastSegment_concat, pyLastSegment_no_sep image⟩
  · rw [hs2, storeSet_keys_of_any _ k d2 hany1]
    exact hcount1
  · rw [hs2, hs1, storeSet_length_of_any _ k d2 hany1]
  · rw [hs2]
    exact storeGet_storeSet_of_any _ k d2 hany1

/-- A concrete first summary record. -/
def sampleSummaryFirst : SummaryData :=
  { summary := Json.str "first", measurements := Json.objNil, abnormalities := Json.arrNil,
    prescriptions := Json.arrNil, exercises := Json.arrNil, dietary := Json.arrNil,
    recommendations := Json.arrNil, raw_response := some "first",
    model_used := "gemini-1.5-flash", error := none }

/-- A concrete second summary record for the same image. -/
def sampleSummarySecond : SummaryData :=
  { sampleSummaryFirst with summary := Json.str "second", raw_response := some "second" }

/-- Witness for C8: saving twice for patient alice and image
alice/scan1.png yields the id alice_scan1.png and one stored document. -/
theorem save_summary_upsert_deterministic_id_witness :
    (save_summary [] "alice".data "alice/scan1.png".data sampleSummaryFirst none "t1").1
      = "alice_scan1.png"
    ∧ (((save_summary (save_summary [] "alice".data "alice/scan1.png".data
          sampleSummaryFirst none "t1").2 "alice".data "alice/scan1.png".data
          sampleSummarySecond none "t2").2.map Prod.fst).count
        (String.mk "alice".data ++ "_" ++ String.mk (pyLastSegment "alice/scan1.png".data)) = 1) := by
  have h := save_summary_upsert_deterministic_id [] "alice".data "alice/scan1.png".data
    sampleSummaryFirst sampleSummarySecond none none "t1" "t2" (by decide)
  exact ⟨h.1.trans (by decide), h.2.2.1⟩

/-! ### Accounting of the per-image loop -/

/-- Counting a predicate and its negation exhausts the list. -/
theorem countP_not_add {α : Type} (p : α → Bool) :
    ∀ l : List α, l.countP p + l.countP (fun a => !(p a)) = l.length
  | [] => rfl
  | a :: t => by
    have IH := countP_not_add p t
    cases ha : p a <;> simp [List.countP_cons, ha] <;> omega

/-- A failing image contributes exactly one error entry and leaves the
save trace unchanged. -/
theorem processImage_of_fails {Img : Type} (env : ScanEnv Img) (patient : List Char)
    (acc : ScanResults × List SaveCall) (img : List Char)
    (h : imageFails env patient img = true) :
    ∃ msg, processImage env patient acc img = (addScanError acc.1 img msg, acc.2) := by
  obtain ⟨r, calls⟩ := acc
  unfold processImage
  unfold imageFails at h
  cases hdl : env.download_image img with
  | error e => exact ⟨_, rfl⟩
  | ok oi =>
    cases oi with
    | none => exact ⟨_, rfl⟩
    | some i =>
      simp only [hdl] at h ⊢
      cases hgen : env.generate_summary i img with
      | error e => exact ⟨_, rfl⟩
      | ok sd =>
        simp only [hgen] at h ⊢
        cases herr : sd.error with
        | some e => exact ⟨_, rfl⟩
        | none =>
          simp only [herr] at h ⊢
          cases hsave : env.save_summary_call patient img sd (metadataOf env img) with
          | error e => exact ⟨_, rfl⟩
          | ok did => simp only [hsave] at h; exact absurd h (by simp)

/-- A successful image contributes exactly one success entry and appends
its record to the save trace. -/
theorem processImage_of_ok {Img : Type} (env : ScanEnv Img) (patient : List Char)
    (acc : ScanResults × List SaveCall) (img : List Char)
    (h : imageFails env patient img = false) :
    ∃ (doc_id : String) (sd : SummaryData),
      processImage env patient acc img
        = (addScanSuccess acc.1 img doc_id sd.summary,
           acc.2 ++ [(patient, img, sd, metadataOf env img)]) := by
  obtain ⟨r, calls⟩ := acc
  unfold processImage
  unfold imageFails at h
  cases hdl : env.download_image img with
  | error e => simp only [hdl] at h; exact absurd h (by decide)
  | ok oi =>
    cases oi with
    | none => simp only [hdl] at h; exact absurd h (by decide)
    | some i =>
      simp only [hdl] at h ⊢
      cases hgen : env.generate_summary i img with
      | error e => simp only [hgen] at h; exact absurd h (by decide)
      | ok sd =>
        simp only [hgen] at h ⊢
        cases herr : sd.error with
        | some e => simp only [herr] at h; exact absurd h (by decide)
        | none =>
          simp only [herr] at h ⊢
          cases hsave : env.save_summary_call patient img sd (metadataOf env img) with
          | error e => simp only [hsave] at h; exact absurd h (by decide)
          | ok did => exact ⟨did, sd, rfl⟩

/-- The loop invariant of the scan fold: processed, failed and the two
outcome lists each grow by exactly the number of successes respectively
failures of the processed images; the total is untouched. -/
theorem scan_foldl_counts {Img : Type} (env : ScanEnv Img) (patient : List Char) :
    ∀ (images : List (List Char)) (acc : ScanResults × List SaveCall),
      ((images.foldl (processImage env patient) acc).1.processed
          = acc.1.processed + images.countP (fun i => !(imageFails env patient i)))
      ∧ ((images.foldl (processImage env patient) acc).1.failed
          = acc.1.failed + images.countP (fun i => imageFails env patient i))
      ∧ ((images.foldl (processImage env patient) acc).1.total_images = acc.1.total_images)
      ∧ ((images.foldl (processImage env patient) acc).1.summaries.length
          = acc.1.summaries.length + images.countP (fun i => !(imageFails env patient i)))
      ∧ ((images.foldl (processImage env patient) acc).1.errors.length
          = acc.1.errors.length + images.countP (fun i => imageFails env patient i))
  | [], acc => by simp
  | img :: t, acc => by
    cases hf : imageFails env patient img with
    | true =>
      obtain ⟨msg, heq⟩ := processImage_of_fails env patient acc img hf
      rw [List.foldl_cons, heq]
      obtain ⟨h1, h2, h3, h4, h5⟩ :=
        scan_foldl_counts env patient t (addScanError acc.1 img msg, acc.2)
      have h1a : (List.foldl (processImage env patient) (addScanError acc.1 img msg, acc.2)
            t).1.processed
          = acc.1.processed + t.countP (fun i => !(imageFails env patient i)) := h1
      have h2a : (List.foldl (processImage env patient) (addScanError acc.1 img msg, acc.2)
            t).1.failed
          = acc.1.failed + 1 + t.countP (fun i => imageFails env patient i) := h2
      have h3a : (List.foldl (processImage env patient) (addScanError acc.1 img msg, acc.2)
            t).1.total_images = acc.1.total_images := h3
      have h4a : (List.foldl (processImage env patient) (addScanError acc.1 img msg, acc.2)
            t).1.summaries.length
          = acc.1.summaries.length + t.countP (fun i => !(imageFails env patient i)) := h4
      have h5a : (List.foldl (processImage env patient) (addScanError acc.1 img msg, acc.2)
            t).1.errors.length
          = acc.1.errors.length + 1 + t.countP (fun i => imageFails env patient i) := by
        have := h5
        simpa [addScanError] using this
      refine ⟨?_, ?_, h3a, ?_, ?_⟩ <;> rw [List.countP_cons] <;> simp [hf] <;> omega
    | false =>
      obtain ⟨did, sd, heq⟩ := processImage_of_ok env patient acc img hf
      rw [List.foldl_cons, heq]
      obtain ⟨h1, h2, h3, h4, h5⟩ :=
        scan_foldl_counts env patient t
          (addScanSuccess acc.1 img did sd.summary,
           acc.2 ++ [(patient, img, sd, metadataOf env img)])
      have h1a : (List.foldl (processImage env patient)
            (addScanSuccess acc.1 img did sd.summary,
             acc.2 ++ [(patient, img, sd, metadataOf env img)]) t).1.processed
          = acc.1.processed + 1 + t.countP (fun i => !(imageFails env patient i)) := h1
      have h2a : (List.foldl (processImage env patient)
            (addScanSuccess acc.1 img did sd.summary,
             acc.2 ++ [(patient, img, sd, metadataOf env img)]) t).1.failed
          = acc.1.failed + t.countP (fun i => imageFails env patient i) := h2
      have h3a : (List.foldl (processImage env patient)
            (addScanSuccess acc.1 img did sd.summary,
             acc.2 ++ [(patient, img, sd, metadataOf env img)]) t).1.total_images
          = acc.1.total_images := h3
      have h4a : (List.foldl (processImage env patient)
            (addScanSuccess acc.1 img did sd.summary,
             acc.2 ++ [(patient, img, sd, metadataOf env img)]) t).1.summaries.length
          = acc.1.summaries.length + 1 + t.countP (fun i => !(imageFails env patient i)) := by
        have := h4
        simpa [addScanSuccess] using this
      have h5a : (List.foldl (processImage env patient)
            (addScanSuccess acc.1 img did sd.summary,
             acc.2 ++ [(patient, img, sd, metadataOf env img)]) t).1.errors.length
          = acc.1.errors.length + t.countP (fun i => imageFails env patient i) := h5
      refine ⟨?_, ?_, h3a, ?_, ?_⟩ <;> rw [List.countP_cons] <;> simp [hf] <;> omega

/-- C1: for a scan over N listed images, every image contributes exactly
one unit to processed or to failed: processed + failed = N; if exactly K
images fail at any stage then failed = K and processed = N - K; and the
outcome lists account for every image (one success entry per processed
image, one error entry per failed image), so no failure stops the loop
early. -/
theorem scan_outcome_exact_accounting {Img : Type} (env : ScanEnv Img)
    (patient : List Char) (images : List (List Char)) :
    ((scan_patient_folder env patient (Except.ok images)).1.total_images = images.length)
    ∧ ((scan_patient_folder env patient (Except.ok images)).1.processed
        + (scan_patient_folder env patient (Except.ok images)).1.failed = images.length)
    ∧ ((scan_patient_folder env patient (Except.ok images)).1.failed
        = images.countP (fun i => imageFails env patient i))
    ∧ ((scan_patient_folder env patient (Except.ok images)).1.processed
        = images.length - images.countP (fun i => imageFails env patient i))
    ∧ ((scan_patient_folder env patient (Except.ok images)).1.summaries.length
        = (scan_patient_folder env patient (Except.ok images)).1.processed)
    ∧ ((scan_patient_folder env patient (Except.ok images)).1.errors.length
        = (scan_patient_folder env patient (Except.ok images)).1.failed) := by
  have hfold := scan_foldl_counts env patient images
    ({ patient_name := patient, total_images := images.length, processed := 0, failed := 0,
       summaries := [], errors := [] }, [])
  have h1 : (scan_patient_folder env patient (Except.ok images)).1.processed
      = 0 + images.countP (fun i => !(imageFails env patient i)) := hfold.1
  have h2 : (scan_patient_folder env patient (Except.ok images)).1.failed
      = 0 + images.countP (fun i => imageFails env patient i) := hfold.2.1
  have h3 : (scan_patient_folder env patient (Except.ok images)).1.total_images
      = images.length := hfold.2.2.1
  have h4 : (scan_patient_folder env patient (Except.ok images)).1.summaries.length
      = 0 + images.countP (fun i => !(imageFails env patient i)) := hfold.2.2.2.1
  have h5 : (scan_patient_folder env patient (Except.ok images)).1.errors.length
      = 0 + images.countP (fun i => imageFails env patient i) := hfold.2.2.2.2
  have hsum := countP_not_add (fun i => imageFails env patient i) images
  exact ⟨h3, by omega, by omega, by omega, by omega, by omega⟩

/-- C2: when extraction returns an error-bearing record for an image, the
loop counts that image as failed, appends the failure to the in-memory
error list, leaves the success list unchanged, and never performs a save:
the save trace is unchanged whatever the persistence collaborator is. -/
theorem error_bearing_extraction_not_persisted {Img : Type} (env : ScanEnv Img)
    (patient : List Char) (acc : ScanResults × List SaveCall) (image_path : List Char)
    (img : Img) (sd : SummaryData) (e : String) :
    env.download_image image_path = Except.ok (some img) →
    env.generate_summary img image_path = Except.ok sd →
    sd.error = some e →
    (processImage env patient acc image_path
        = (addScanError acc.1 image_path ("Gemini API error: " ++ e), acc.2))
    ∧ ((processImage env patient acc image_path).1.failed = acc.1.failed + 1)
    ∧ ((processImage env patient acc image_path).1.errors
        = acc.1.errors ++ [(image_path, "Gemini API error: " ++ e)])
    ∧ ((processImage env patient acc image_path).2 = acc.2)
    ∧ ((processImage env patient acc image_path).1.summaries = acc.1.summaries) := by
  intro hdl hgen herr
  obtain ⟨r, calls⟩ := acc
  have heq : processImage env patient (r, calls) image_path
      = (addScanError r image_path ("Gemini API error: " ++ e), calls) := by
    unfold processImage
    simp only [hdl, hgen, herr]
  refine ⟨heq, ?_, ?_, ?_, ?_⟩ <;> simp [heq, addScanError]

/-- A collaborator environment whose extraction always reports a quota
error record. -/
def sampleFailEnv : ScanEnv Unit :=
  { download_image := fun _ => Except.ok (some ())
    get_image_metadata := fun _ => Except.ok []
    generate_summary := fun _ _ => Except.ok (errorRecord "gemini-1.5-flash" "quota exceeded")
    save_summary_call := fun _ _ _ _ => Except.ok "some_id" }

/-- An accumulator holding a scan in progress. -/
def sampleScanAcc : ScanResults × List SaveCall :=
  ({ patient_name := "alice".data, total_images := 1, processed := 0, failed := 0,
     summaries := [], errors := [] }, [])

/-- Witness for C2: on a concrete error-bearing extraction the image is
counted failed and the save trace stays empty. -/
theorem error_bearing_extraction_not_persisted_witness :
    ((processImage sampleFailEnv "alice".data sampleScanAcc "alice/x.png".data).1.failed
      = sampleScanAcc.1.failed + 1)
    ∧ ((processImage sampleFailEnv "alice".data sampleScanAcc "alice/x.png".data).2
      = sampleScanAcc.2) := by
  have h := error_bearing_extraction_not_persisted sampleFailEnv "alice".data sampleScanAcc
    "alice/x.png".data () (errorRecord "gemini-1.5-flash" "quota exceeded") "quota exceeded"
    rfl rfl rfl
  exact ⟨h.2.1, h.2.2.2.1⟩

/-! ### Fence stripping: occurrence semantics and the wrapped-reply shape -/

/-- A reply wrapped in a json-tagged markdown fence, as the model emits
it: the marker line, the payload, the closing fence. -/
def wrapJson (s : List Char) : List Char := fenceJson ++ ('\n' :: (s ++ '\n' :: fence3))

/-- The find helper succeeds exactly on substring occurrence. -/
theorem pyFindAux_isSome_iff (needle : List Char) :
    ∀ (l : List Char) (i : Nat), (pyFindAux needle l i).isSome = true ↔ needle <:+: l
  | [], i => by
    by_cases hp : needle.isPrefixOf ([] : List Char) = true
    · simp only [pyFindAux, hp, if_true, Option.isSome_some, true_iff]
      exact (List.isPrefixOf_iff_prefix.mp hp).isInfix
    · have hp' : needle.isPrefixOf ([] : List Char) = false := by
        cases hv : needle.isPrefixOf ([] : List Char)
        · rfl
        · exact absurd hv hp
      simp only [pyFindAux, hp', Bool.false_eq_true, if_false, Option.isSome_none, false_iff]
      intro hinf
      obtain ⟨u, v, huv⟩ := hinf
      have hne : needle = [] := by
        rcases List.append_eq_nil.mp huv with ⟨h1, h2⟩
        exact (List.append_eq_nil.mp h1).2
      exact hp (by simp [hne, List.isPrefixOf])
  | c :: t, i => by
    by_cases hp : needle.isPrefixOf (c :: t) = true
    · simp only [pyFindAux, hp, if_true, Option.isSome_some, true_iff]
      exact (List.isPrefixOf_iff_prefix.mp hp).isInfix
    · have hp' : needle.isPrefixOf (c :: t) = false := by
        cases hv : needle.isPrefixOf (c :: t)
        · rfl
        · exact absurd hv hp
      have hnp : ¬ needle <+: c :: t := fun hpre => hp (List.isPrefixOf_iff_prefix.mpr hpre)
      simp only [pyFindAux, hp', Bool.false_eq_true, if_false,
        pyFindAux_isSome_iff needle t (i + 1)]
      rw [List.infix_cons_iff]
      constructor
      · exact fun h => Or.inr h
      · rintro (hpre | hinf)
        · exact absurd hpre hnp
        · exact hinf

/-- Containment failure means no substring occurrence. -/
theorem pyContainsSub_false_iff (hay needle : List Char) :
    pyContainsSub hay needle = false ↔ ¬ needle <:+: hay := by
  unfold pyContainsSub pyFind
  rw [← pyFindAux_isSome_iff needle hay 0]
  cases pyFindAux needle hay 0 <;> simp

/-- A failed containment test makes find return none. -/
theorem pyFind_none_of_not_infix (hay needle : List Char) (h : ¬ needle <:+: hay) :
    pyFind hay needle = none := by
  cases hv : pyFind hay needle with
  | none => rfl
  | some j =>
    exfalso
    apply h
    rw [← pyFindAux_isSome_iff needle hay 0]
    unfold pyFind at hv
    simp [hv]

/-- A matching head makes find return index zero. -/
theorem pyFind_of_prefix (hay needle : List Char) (h : needle.isPrefixOf hay = true) :
    pyFind hay needle = some 0 := by
  unfold pyFind
  cases hay with
  | nil => simp [pyFindAux, h]
  | cons c t => simp [pyFindAux, h]

/-- Stripping yields an infix of the original text. -/
theorem pyStrip_infix_self (l : List Char) : pyStrip l <:+: l := by
  unfold pyStrip
  have h1 : (l.dropWhile isPySpace) <:+ l := List.dropWhile_suffix _
  have h2 : ((l.dropWhile isPySpace).reverse.dropWhile isPySpace)
      <:+ (l.dropWhile isPySpace).reverse := List.dropWhile_suffix _
  have h3 : ((l.dropWhile isPySpace).reverse.dropWhile isPySpace).reverse
      <+: (l.dropWhile isPySpace) := by
    rw [← List.reverse_suffix]
    simpa using h2
  exact h3.isInfix.trans h1.isInfix

/-- With no fence marker anywhere, the stripping step is the identity. -/
theorem stripFencedBlock_of_no_fence (t : List Char) (h : ¬ fence3 <:+: t) :
    stripFencedBlock t = t := by
  have hj : pyFind t fenceJson = none := by
    apply pyFind_none_of_not_infix
    intro hinf
    exact h ((show fence3 <+: fenceJson from ⟨['j', 's', 'o', 'n'], rfl⟩).isInfix.trans hinf)
  have h3 : pyFind t fence3 = none := pyFind_none_of_not_infix t fence3 h
  simp [stripFencedBlock, hj, h3]

/-- Stripping ignores a leading whitespace character. -/
theorem pyStrip_cons_of_space (c : Char) (l : List Char) (h : isPySpace c = true) :
    pyStrip (c :: l) = pyStrip l := by
  unfold pyStrip
  rw [List.dropWhile_cons]
  simp [h]

/-- Stripping ignores a trailing whitespace character. -/
theorem pyStrip_append_of_space (l : List Char) (c : Char) (h : isPySpace c = true) :
    pyStrip (l ++ [c]) = pyStrip l := by
  unfold pyStrip
  rw [List.dropWhile_append]
  by_cases he : (l.dropWhile isPySpace).isEmpty = true
  · have he' : l.dropWhile isPySpace = [] := by simpa using he
    simp [he, he', List.dropWhile_cons, h]
  · simp only [he, Bool.false_eq_true, if_false]
    rw [List.reverse_append]
    simp [List.dropWhile_cons, h]

/-- The fence cannot start inside the payload region followed by the
newline before the closing fence, unless the payload contains a fence. -/
theorem fence3_not_prefix_mid (c : Char) (s : List Char) (h : ¬ fence3 <:+: c :: s) :
    fence3.isPrefixOf ((c :: s) ++ '\n' :: fence3) = false := by
  cases s with
  | nil =>
    show (backtickCh == c && ([backtickCh, backtickCh].isPrefixOf ('\n' :: fence3))) = false
    rw [show ([backtickCh, backtickCh].isPrefixOf ('\n' :: fence3)) = false from by decide]
    exact Bool.and_false _
  | cons x s2 =>
    cases s2 with
    | nil =>
      show (backtickCh == c
        && (backtickCh == x && ([backtickCh].isPrefixOf ('\n' :: fence3)))) = false
      rw [show ([backtickCh].isPrefixOf ('\n' :: fence3)) = false from by decide,
        Bool.and_false, Bool.and_false]
    | cons y r =>
      cases hv : fence3.isPrefixOf ((c :: x :: y :: r) ++ '\n' :: fence3) with
      | false => rfl
      | true =>
        exfalso
        obtain ⟨u, hu⟩ := List.isPrefixOf_iff_prefix.mp hv
        simp only [fence3, List.cons_append, List.nil_append, List.cons.injEq] at hu
        obtain ⟨h1, h2, h3, _⟩ := hu
        apply h
        apply List.IsPrefix.isInfix
        exact ⟨r, by subst h1; subst h2; subst h3; rfl⟩

/-- Finding the closing fence after a fence-free payload: the first
occurrence is just past the payload and its trailing newline. -/
theorem pyFindAux_fence_tail :
    ∀ (s : List Char) (i : Nat), ¬ fence3 <:+: s →
      pyFindAux fence3 (s ++ '\n' :: fence3) i = some (i + s.length + 1)
  | [], i, _ => rfl
  | c :: s, i, h => by
    have hnp := fence3_not_prefix_mid c s h
    rw [List.cons_append]
    show (if fence3.isPrefixOf (c :: (s ++ '\n' :: fence3)) = true then some i
      else pyFindAux fence3 (s ++ '\n' :: fence3) (i + 1)) = some (i + (c :: s).length + 1)
    rw [show fence3.isPrefixOf (c :: (s ++ '\n' :: fence3))
        = fence3.isPrefixOf ((c :: s) ++ '\n' :: fence3) from by rw [List.cons_append]]
    rw [hnp]
    simp only [Bool.false_eq_true, if_false]
    have hrec : ¬ fence3 <:+: s := fun hi => h (hi.trans (List.infix_cons_iff.mpr (Or.inr (List.infix_refl s))))
    rw [pyFindAux_fence_tail s (i + 1) hrec]
    congr 1
    simp [List.length_cons]
    omega

/-- Stripping a text with non-space first and last characters is the
identity. -/
theorem pyStrip_cons_concat (c d : Char) (m : List Char)
    (hc : isPySpace c = false) (hd : isPySpace d = false) :
    pyStrip (c :: (m ++ [d])) = c :: (m ++ [d]) := by
  unfold pyStrip
  rw [List.dropWhile_cons]
  simp only [hc, Bool.false_eq_true, if_false]
  rw [List.reverse_cons, List.reverse_append, List.reverse_cons]
  simp only [List.reverse_nil, List.nil_append, List.cons_append, List.dropWhile_cons, hd,
    Bool.false_eq_true, if_false]
  simp

/-- The wrapped reply written with an explicit first and last character. -/
theorem wrapJson_shape (s : List Char) :
    wrapJson s = backtickCh ::
      (([backtickCh, backtickCh, 'j', 's', 'o', 'n'] ++ ('\n' :: (s ++ ['\n', backtickCh, backtickCh])))
        ++ [backtickCh]) := by
  simp [wrapJson, fenceJson, fence3]

/-- The wrapped reply has no surrounding whitespace to strip. -/
theorem pyStrip_wrap (s : List Char) : pyStrip (wrapJson s) = wrapJson s := by
  rw [wrapJson_shape]
  exact pyStrip_cons_concat _ _ _ (by decide) (by decide)

/-- The json fence marker is found at index zero of the wrapped reply. -/
theorem pyFind_wrap_fenceJson (s : List Char) : pyFind (wrapJson s) fenceJson = some 0 := by
  apply pyFind_of_prefix
  exact List.isPrefixOf_iff_prefix.mpr ⟨'\n' :: (s ++ '\n' :: fence3), rfl⟩

/-- The closing fence of the wrapped reply is found just past the
payload, provided the payload is fence-free. -/
theorem pyFindFrom_wrap_fence3 (s : List Char) (h : ¬ fence3 <:+: s) :
    pyFindFrom (wrapJson s) fence3 7 = some (s.length + 9) := by
  unfold pyFindFrom wrapJson
  rw [show (7 : Nat) = fenceJson.length from rfl, List.drop_left]
  show (pyFindAux fence3 ('\n' :: (s ++ '\n' :: fence3)) 0).map (· + fenceJson.length)
    = some (s.length + 9)
  have hstep : pyFindAux fence3 ('\n' :: (s ++ '\n' :: fence3)) 0
      = pyFindAux fence3 (s ++ '\n' :: fence3) 1 := by
    show (if fence3.isPrefixOf ('\n' :: (s ++ '\n' :: fence3)) = true then some 0
      else pyFindAux fence3 (s ++ '\n' :: fence3) 1) = _
    rw [show fence3.isPrefixOf ('\n' :: (s ++ '\n' :: fence3)) = false from by
      show (backtickCh == '\n' && _) = false
      rw [show (backtickCh == '\n') = false from by decide, Bool.false_and]]
    simp
  rw [hstep, pyFindAux_fence_tail s 1 h]
  show some (1 + s.length + 1 + 7) = some (s.length + 9)
  congr 1
  omega

/-- The slice between the two fence markers of the wrapped reply. -/
theorem pySlice_wrap (s : List Char) :
    pySlice (wrapJson s) 7 (s.length + 9) = '\n' :: (s ++ ['\n']) := by
  unfold pySlice wrapJson
  rw [show s.length + 9 = fenceJson.length + (s.length + 2) from by
    rw [show fenceJson.length = 7 from rfl]; omega]
  rw [List.take_append]
  have htake : ('\n' :: (s ++ '\n' :: fence3)).take (s.length + 2) = '\n' :: (s ++ ['\n']) := by
    rw [show s.length + 2 = (s.length + 1) + 1 from rfl, List.take_succ_cons]
    congr 1
    rw [show s.length + 1 = s.length + 1 from rfl, List.take_append 1]
    rfl
  rw [htake, show (7 : Nat) = fenceJson.length from rfl, List.drop_left]

/-- The processed text of the wrapped reply equals the processed text of
the unwrapped reply: both are the stripped payload. -/
theorem responseTextOf_wrap (s : List Char) (h : pyContainsSub s fence3 = false) :
    responseTextOf (wrapJson s) = pyStrip s ∧ responseTextOf s = pyStrip s := by
  have hinf : ¬ fence3 <:+: s := (pyContainsSub_false_iff s fence3).mp h
  constructor
  · unfold responseTextOf
    rw [pyStrip_wrap]
    unfold stripFencedBlock
    rw [pyFind_wrap_fenceJson]
    simp only [Nat.zero_add, pyFindFrom_wrap_fence3 s hinf, pySlice_wrap]
    rw [pyStrip_cons_of_space '\n' (s ++ ['\n']) (by decide)]
    rw [pyStrip_append_of_space s '\n' (by decide)]
  · unfold responseTextOf
    apply stripFencedBlock_of_no_fence
    intro hbad
    exact hinf (hbad.trans (pyStrip_infix_self s))

/-- Two non-empty replies with the same processed text produce the same
record: everything after fence stripping is a function of that text. -/
theorem generate_eq_of_responseText_eq (model : String) (f1 f2 : Option Nat)
    (t1 t2 : List Char) (h1 : t1 ≠ []) (h2 : t2 ≠ []) (h : responseTextOf t1 = responseTextOf t2) :
    generate_clinical_summary model (ModelResponse.reply t1 f1)
      = generate_clinical_summary model (ModelResponse.reply t2 f2) := by
  simp only [generate_clinical_summary]
  rw [if_neg h1, if_neg h2, h]

/-- C5 (amended): for every payload that is non-empty and free of the
triple-backtick fence marker, the record extracted from the reply wrapped
in a json-tagged fence equals the record extracted from the unwrapped
reply; in particular this holds for every JSON object whose serialization
contains no fence marker. -/
theorem fenced_wrap_equivalence_without_backticks (model : String) (f1 f2 : Option Nat)
    (s : List Char) :
    s ≠ [] →
    pyContainsSub s fence3 = false →
    generate_clinical_summary model (ModelResponse.reply (wrapJson s) f1)
      = generate_clinical_summary model (ModelResponse.reply s f2) := by
  intro hne hfree
  have hw := responseTextOf_wrap s hfree
  apply generate_eq_of_responseText_eq
  · simp [wrapJson, fenceJson]
  · exact hne
  · rw [hw.1, hw.2]

/-- Witness for C5: a concrete JSON object parsed identically wrapped and
unwrapped. -/
theorem fenced_wrap_equivalence_without_backticks_witness :
    generate_clinical_summary "gemini-1.5-flash"
        (ModelResponse.reply (wrapJson ("\x7b\"summary\": \"ok\"\x7d" : String).data) none)
      = generate_clinical_summary "gemini-1.5-flash"
        (ModelResponse.reply ("\x7b\"summary\": \"ok\"\x7d" : String).data none)
    ∧ (generate_clinical_summary "gemini-1.5-flash"
        (ModelResponse.reply ("\x7b\"summary\": \"ok\"\x7d" : String).data none)).summary
      = Json.str "ok" := by
  refine ⟨fenced_wrap_equivalence_without_backticks "gemini-1.5-flash" none none
    ("\x7b\"summary\": \"ok\"\x7d" : String).data (by decide) (by decide), by decide⟩

/-- A valid JSON object whose string payload contains a fence marker. -/
def backtickPayload : List Char :=
  ("\x7b\"summary\": \"a" : String).data ++ fence3 ++ (" b\"\x7d" : String).data

/-- Counterexample for C5 as frozen: this payload is a JSON object (the
parser accepts it), yet its wrapped and unwrapped replies produce
different records, because the fence search finds the backticks inside
the JSON string value. -/
theorem fenced_wrap_equivalence_fails_on_backtick_payload :
    (jsonLoads backtickPayload).isSome = true
    ∧ (match jsonLoads backtickPayload with
        | some j => j.isObj
        | none => false) = true
    ∧ generate_clinical_summary "gemini-1.5-flash"
        (ModelResponse.reply (wrapJson backtickPayload) none)
      ≠ generate_clinical_summary "gemini-1.5-flash"
        (ModelResponse.reply backtickPayload none) := by
  refine ⟨by decide, by decide, by decide⟩

/-- C6 (amended): for every non-empty reply whose processed text (the
reply stripped of surrounding whitespace and of an enclosing fence) is
not valid JSON, extraction does not fail: it returns the fallback record
whose summary is that processed text, whose measurements mapping and five
lists are all empty, and which carries no error field.  (As frozen, the
claim said the summary equals the raw reply text; the code uses the
stripped, fence-unwrapped text, which equals the raw reply only when the
reply is unfenced and has no surrounding whitespace.) -/
theorem fallback_record_on_invalid_json (model : String) (finish : Option Nat) (t : List Char) :
    t ≠ [] →
    jsonLoads (responseTextOf t) = none →
    generate_clinical_summary model (ModelResponse.reply t finish)
      = { summary := Json.str (String.mk (responseTextOf t))
          measurements := Json.objNil
          abnormalities := Json.arrNil
          prescriptions := Json.arrNil
          exercises := Json.arrNil
          dietary := Json.arrNil
          recommendations := Json.arrNil
          raw_response := some (String.mk (responseTextOf t))
          model_used := model
          error := none } := by
  intro ht hj
  simp only [generate_clinical_summary]
  rw [if_neg ht, hj]
  rfl

/-- A fenced reply whose payload is prose, not JSON. -/
def fencedProseReply : List Char := wrapJson (" hello " : String).data

/-- Counterexample for C6 as frozen: on this fenced non-JSON reply the
fallback record is produced with no error, but its summary is the
unwrapped, stripped payload, not the raw reply text. -/
theorem fallback_summary_differs_from_raw_reply :
    jsonLoads (responseTextOf fencedProseReply) = none
    ∧ (generate_clinical_summary "gemini-1.5-flash"
        (ModelResponse.reply fencedProseReply none)).error = none
    ∧ (generate_clinical_summary "gemini-1.5-flash"
        (ModelResponse.reply fencedProseReply none)).summary = Json.str "hello"
    ∧ (generate_clinical_summary "gemini-1.5-flash"
        (ModelResponse.reply fencedProseReply none)).summary
      ≠ Json.str (String.mk fencedProseReply) := by
  exact ⟨by decide, by decide, by decide, by decide⟩

/-- Witness for C6 at the concrete fenced prose reply. -/
theorem fallback_record_on_invalid_json_witness :
    generate_clinical_summary "gemini-1.5-flash" (ModelResponse.reply fencedProseReply none)
      = { summary := Json.str (String.mk (responseTextOf fencedProseReply))
          measurements := Json.objNil
          abnormalities := Json.arrNil
          prescriptions := Json.arrNil
          exercises := Json.arrNil
          dietary := Json.arrNil
          recommendations := Json.arrNil
          raw_response := some (String.mk (responseTextOf fencedProseReply))
          model_used := "gemini-1.5-flash"
          error := none } :=
  fallback_record_on_invalid_json "gemini-1.5-flash" none fencedProseReply
    (by decide) (by decide)
